import Mathlib

/-!
Shallow embedding of the `unix-named-pipe` Rust crate (src/lib.rs, src/ext.rs).

The crate is a thin wrapper over POSIX syscalls: `create` calls `mkfifo` and
maps the resulting errno into `std::io::ErrorKind`s; `open_read` / `open_write`
build `std::fs::OpenOptions` with `O_NONBLOCK` and call `open`; `is_fifo`
queries a handle's metadata and reports the FIFO file-type tag.

The embedding models:
  * Linux errno constants and `O_NONBLOCK`, with the numeric values of libc;
  * Rust's `std::io::Error` as a record of kind, message and the optional raw
    OS code (`io::Error::new` produces a custom error whose `raw_os_error()`
    is `None`; an error coming straight from a syscall carries `Some code`
    and a kind computed by the standard library's errno decoding);
  * the `create` function, including the two path conversions it performs
    before the syscall (`Path::to_str().unwrap()`, which panics on non-UTF-8,
    and `CString::new(..)?`, which fails on an interior NUL byte), with the
    `mkfifo` outcome supplied by an oracle (success, or a failing errno);
  * a small POSIX filesystem/pipe state machine giving semantics to `open`,
    `read` and `write` on FIFOs, faithful to POSIX non-blocking pipe rules,
    over which `open_read` and `open_write` are the crate's exact
    `OpenOptions` builder chains;
  * `FileFIFOExt::is_fifo` over a handle whose `fstat` outcome (file-type tag
    or failing errno) is part of the handle value.
-/

namespace UnixNamedPipe

/-! ## Errno constants (Linux values, as exposed by libc) -/

def EPERM : Nat := 1
def ENOENT : Nat := 2
def EINTR : Nat := 4
def EIO : Nat := 5
def ENXIO : Nat := 6
def EBADF : Nat := 9
def EAGAIN : Nat := 11
def ENOMEM : Nat := 12
def EACCES : Nat := 13
def EEXIST : Nat := 17
def EINVAL : Nat := 22
def EPIPE : Nat := 32
def EOVERFLOW : Nat := 75

/-- Flag `libc::O_NONBLOCK` (Linux value 0o4000). -/
def O_NONBLOCK : Nat := 2048

/-! ## Model of `std::io::Error` -/

/-- Subset of `std::io::ErrorKind` reachable in this crate. -/
inductive IoErrorKind where
  | permissionDenied
  | alreadyExists
  | notFound
  | wouldBlock
  | invalidInput
  | interrupted
  | brokenPipe
  | unexpectedEof
  | other
deriving DecidableEq

/-- Errno-to-kind decoding performed by Rust's standard library
(`sys::unix::decode_error_kind`, restricted to the codes of this model;
every code outside the decoded table yields `ErrorKind::Other`). -/
def decodeErrorKind (code : Nat) : IoErrorKind :=
  if code = EPERM ∨ code = EACCES then .permissionDenied
  else if code = EEXIST then .alreadyExists
  else if code = ENOENT then .notFound
  else if code = EAGAIN then .wouldBlock
  else if code = EINVAL then .invalidInput
  else if code = EINTR then .interrupted
  else if code = EPIPE then .brokenPipe
  else .other

/-- The `strerror` text for the errno values of this model; this is also what
the `errno` crate's `Display` implementation prints. -/
def strerrorText (code : Nat) : String :=
  if code = EPERM then "Operation not permitted"
  else if code = ENOENT then "No such file or directory"
  else if code = EINTR then "Interrupted system call"
  else if code = EIO then "Input/output error"
  else if code = ENXIO then "No such device or address"
  else if code = EBADF then "Bad file descriptor"
  else if code = EAGAIN then "Resource temporarily unavailable"
  else if code = ENOMEM then "Cannot allocate memory"
  else if code = EACCES then "Permission denied"
  else if code = EEXIST then "File exists"
  else if code = EINVAL then "Invalid argument"
  else if code = EPIPE then "Broken pipe"
  else if code = EOVERFLOW then "Value too large for defined data type"
  else "Unknown error " ++ toString code

/-- Model of `std::io::Error`: its kind, its displayed message, and the raw OS
error code when the error is the OS variant (`raw_os_error()`). -/
structure IoError where
  kind : IoErrorKind
  msg : String
  rawOs : Option Nat
deriving DecidableEq

/-- Constructor `io::Error::new(kind, message)`: a custom error, whose
`raw_os_error()` is `None`. -/
def IoError.new (k : IoErrorKind) (m : String) : IoError :=
  { kind := k, msg := m, rawOs := none }

/-- An error produced directly by a failing syscall
(`io::Error::from_raw_os_error`): kind decoded from the errno, message the
`strerror` text, and the raw code attached. -/
def IoError.osError (code : Nat) : IoError :=
  { kind := decodeErrorKind code, msg := strerrorText code, rawOs := some code }

/-- The error `From<NulError> for io::Error` produces when `CString::new`
meets a NUL byte. -/
def cstringNulError : IoError :=
  IoError.new .invalidInput "data provided contains a nul byte"

/-! ## Model of `create` (src/lib.rs lines 39-76) -/

/-- A path as the code observes it through `Path::to_str()`: either valid
UTF-8 with the given string contents, or non-UTF-8 bytes (for which `to_str`
returns `None`). The only operation `create` performs on the raw path is
`to_str`, so this sum is a faithful abstraction of `&Path`. -/
inductive PathRepr where
  | utf8 (s : String)
  | nonUtf8 (bytes : List Nat)
deriving DecidableEq

/-- Result of `Path::to_str()`. -/
def PathRepr.toStr : PathRepr → Option String
  | .utf8 s => some s
  | .nonUtf8 _ => none

/-- Whether a string contains a NUL byte (the condition under which
`CString::new` fails with `NulError`). -/
def containsNul (s : String) : Bool :=
  s.data.any (fun c => c.toNat = 0)

/-- Debug formatting (`{:?}`) of the `CString` holding a path, as interpolated
into `create`'s error messages: the string surrounded by double quotes
(modelled for paths free of characters needing escapes). -/
def cstringDebug (s : String) : String :=
  "\"" ++ s ++ "\""

/-- Outcome of the `mkfifo(path, mode)` syscall, supplied by the environment:
`none` for success (return value 0), `some e` for failure with errno `e`. -/
def MkfifoOracle : Type := String → Nat → Option Nat

/-- The syscall `create` issued, when it reached the syscall. -/
structure MkfifoCall where
  path : String
  mode : Nat
deriving DecidableEq

/-- How an invocation of `create` ends: a Rust panic (from `.unwrap()`),
an `Err(io::Error)`, or `Ok(())`. -/
inductive CreateOutcome where
  | panicked
  | err (e : IoError)
  | ok
deriving DecidableEq

/-- Full result of an invocation of `create`: the `mkfifo` call it performed
(`none` when it never reached the syscall) and its outcome. -/
structure CreateResult where
  syscall : Option MkfifoCall
  outcome : CreateOutcome
deriving DecidableEq

/-- Embedding of `create` (src/lib.rs lines 39-76):

    let path = CString::new(path.as_ref().to_str().unwrap())?;
    let mode = mode.unwrap_or(0o644);
    let result = unsafe { mkfifo(path.as_ptr(), mode as mode_t) };
    if result == 0 { return Ok(()); }
    let error = errno::errno();
    match error.0 {
      EACCES => Err(io::Error::new(PermissionDenied, format!(...))),
      EEXIST => Err(io::Error::new(AlreadyExists, format!(...))),
      ENOENT => Err(io::Error::new(NotFound, format!(...))),
      _      => Err(io::Error::new(Other, format!(...))),
    }

Each message is `format!("could not open {:?}: {}", path, error)` where
`path` is the `CString` (Debug-formatted) and `error` the errno display. -/
def create (path : PathRepr) (mode : Option Nat) (os : MkfifoOracle) : CreateResult :=
  match path.toStr with
  | none => { syscall := none, outcome := .panicked }
  | some s =>
    if containsNul s then
      { syscall := none, outcome := .err cstringNulError }
    else
      let m := mode.getD 0o644
      match os s m with
      | none => { syscall := some { path := s, mode := m }, outcome := .ok }
      | some e =>
        let message := "could not open " ++ cstringDebug s ++ ": " ++ strerrorText e
        let ioErr :=
          if e = EACCES then IoError.new .permissionDenied message
          else if e = EEXIST then IoError.new .alreadyExists message
          else if e = ENOENT then IoError.new .notFound message
          else IoError.new .other message
        { syscall := some { path := s, mode := m }, outcome := .err ioErr }

/-! ## POSIX filesystem / pipe model for `open`, `read`, `write` -/

/-- Kernel-side state of a FIFO: attached readers, attached writers, and the
bytes currently buffered in the pipe. -/
structure FifoChannel where
  readers : Nat
  writers : Nat
  buf : List Nat
deriving DecidableEq

/-- A filesystem node: a FIFO special file with its channel, or a regular
file with its contents. -/
inductive FsNode where
  | fifo (ch : FifoChannel)
  | regular (content : List Nat)
deriving DecidableEq

/-- The filesystem: an association of paths to nodes. -/
def FsState : Type := List (String × FsNode)

instance : DecidableEq FsState := by
  unfold FsState
  infer_instance

/-- Look up the node at a path. -/
def lookupFile : FsState → String → Option FsNode
  | [], _ => none
  | (q, n) :: rest, p => if q = p then some n else lookupFile rest p

/-- Replace the node at a path (appending when the path is absent). -/
def setFile : FsState → String → FsNode → FsState
  | [], p, n => [(p, n)]
  | (q, m) :: rest, p, n =>
    if q = p then (q, n) :: rest else (q, m) :: setFile rest p n

/-- An open file descriptor: the path it was opened at, its access mode, the
append flag, and whether `O_NONBLOCK` was set at open time. -/
structure Handle where
  path : String
  canRead : Bool
  canWrite : Bool
  appendF : Bool
  nonblock : Bool
deriving DecidableEq

/-- Result of an `open` call: success with the new handle and filesystem
state, immediate failure with an `io::Error`, or suspension of the calling
thread (a blocking FIFO open waiting for the other end). -/
inductive OpenOutcome where
  | ok (h : Handle) (st : FsState)
  | err (e : IoError) (st : FsState)
  | blocked
deriving DecidableEq

/-- Model of `std::fs::OpenOptions` (the fields this crate uses; neither
`open_read` nor `open_write` sets `create` or `truncate`). -/
structure OpenOptions where
  readFlag : Bool
  writeFlag : Bool
  appendFlag : Bool
  customFlags : Nat
deriving DecidableEq

/-- `OpenOptions::new()`: all options off. -/
def OpenOptions.new : OpenOptions :=
  { readFlag := false, writeFlag := false, appendFlag := false, customFlags := 0 }

/-- `OpenOptions::read`. -/
def OpenOptions.read (o : OpenOptions) (b : Bool) : OpenOptions :=
  { o with readFlag := b }

/-- `OpenOptions::write`. -/
def OpenOptions.write (o : OpenOptions) (b : Bool) : OpenOptions :=
  { o with writeFlag := b }

/-- `OpenOptions::append`. -/
def OpenOptions.append (o : OpenOptions) (b : Bool) : OpenOptions :=
  { o with appendFlag := b }

/-- `OpenOptionsExt::custom_flags`. -/
def OpenOptions.custom_flags (o : OpenOptions) (flags : Nat) : OpenOptions :=
  { o with customFlags := flags }

/-- Whether the custom flags include `O_NONBLOCK`. -/
def OpenOptions.nonblockSet (o : OpenOptions) : Bool :=
  o.customFlags.land O_NONBLOCK != 0

/-- The access mode triple (read, write, append as `O_` flags) that Rust's
standard library computes from the options (`get_access_mode`): `read` alone
gives `O_RDONLY`; `write` alone `O_WRONLY`; both `O_RDWR`; `append` forces
write access and adds `O_APPEND`; no access request is `EINVAL`. -/
def OpenOptions.accessMode (o : OpenOptions) : Option (Bool × Bool × Bool) :=
  match o.readFlag, o.writeFlag, o.appendFlag with
  | true, false, false => some (true, false, false)
  | false, true, false => some (false, true, false)
  | true, true, false => some (true, true, false)
  | false, _, true => some (false, true, true)
  | true, _, true => some (true, true, true)
  | false, false, false => none

/-- POSIX semantics of `open(path, flags)` for the cases this model covers.
For a FIFO (POSIX `open`, fifo(7)):
  * `O_RDONLY`: with `O_NONBLOCK`, succeeds at once; blocking, waits for a
    writer unless one is attached;
  * `O_WRONLY`: with `O_NONBLOCK`, fails with `ENXIO` when no reader is
    attached, succeeds otherwise; blocking, waits for a reader;
  * `O_RDWR`: succeeds without blocking (Linux behaviour).
A missing path fails with `ENOENT` (the options set no `create` flag); a
regular file opens immediately. -/
def osOpen (o : OpenOptions) (p : String) (st : FsState) : OpenOutcome :=
  match o.accessMode with
  | none => .err (IoError.osError EINVAL) st
  | some (r, w, a) =>
    match lookupFile st p with
    | none => .err (IoError.osError ENOENT) st
    | some (.regular _) => .ok { path := p, canRead := r, canWrite := w, appendF := a, nonblock := o.nonblockSet } st
    | some (.fifo ch) =>
      let h : Handle := { path := p, canRead := r, canWrite := w, appendF := a, nonblock := o.nonblockSet }
      if r && !w then
        if o.nonblockSet || decide (0 < ch.writers) then
          .ok h (setFile st p (.fifo { ch with readers := ch.readers + 1 }))
        else .blocked
      else if w && !r then
        if 0 < ch.readers then
          .ok h (setFile st p (.fifo { ch with writers := ch.writers + 1 }))
        else if o.nonblockSet then .err (IoError.osError ENXIO) st
        else .blocked
      else
        .ok h (setFile st p (.fifo { ch with readers := ch.readers + 1, writers := ch.writers + 1 }))

/-- `OpenOptions::open(path)` against a filesystem state. (`open` is a Lean
keyword, hence the name `openAt`.) -/
def OpenOptions.openAt (o : OpenOptions) (p : String) (st : FsState) : OpenOutcome :=
  osOpen o p st

/-- Embedding of `open_read` (src/lib.rs lines 91-96):

    OpenOptions::new().read(true).custom_flags(libc::O_NONBLOCK).open(path) -/
def open_read (p : String) (st : FsState) : OpenOutcome :=
  ((OpenOptions.new.read true).custom_flags O_NONBLOCK).openAt p st

/-- Embedding of `open_write` (src/lib.rs lines 118-124):

    OpenOptions::new().write(true).append(true)
      .custom_flags(libc::O_NONBLOCK).open(path) -/
def open_write (p : String) (st : FsState) : OpenOutcome :=
  (((OpenOptions.new.write true).append true).custom_flags O_NONBLOCK).openAt p st

/-- Result of a `read` call: the bytes obtained and the new state, an error,
or suspension of the calling thread. -/
inductive ReadOutcome where
  | ok (bs : List Nat) (st : FsState)
  | err (e : IoError) (st : FsState)
  | blocked
deriving DecidableEq

/-- Result of a `write` call: the number of bytes written and the new state,
an error, or suspension of the calling thread. -/
inductive WriteOutcome where
  | ok (n : Nat) (st : FsState)
  | err (e : IoError) (st : FsState)
  | blocked
deriving DecidableEq

/-- Kernel pipe capacity (Linux default, 64 KiB). -/
def pipeCapacity : Nat := 65536

/-- POSIX semantics of `read(fd, n)` on this model. On a FIFO: an empty
buffer with no writer attached is end-of-file (0 bytes); an empty buffer with
a writer attached yields `EAGAIN` under `O_NONBLOCK` and otherwise blocks;
a non-empty buffer yields up to `n` buffered bytes. A handle without read
access fails with `EBADF`. Regular-file reads return a prefix of the
contents (offsets are not modelled; no claim depends on them). -/
def osRead (h : Handle) (n : Nat) (st : FsState) : ReadOutcome :=
  if !h.canRead then .err (IoError.osError EBADF) st
  else
    match lookupFile st h.path with
    | none => .err (IoError.osError EBADF) st
    | some (.regular content) => .ok (content.take n) st
    | some (.fifo ch) =>
      if ch.buf.isEmpty then
        if ch.writers = 0 then .ok [] st
        else if h.nonblock then .err (IoError.osError EAGAIN) st
        else .blocked
      else
        .ok (ch.buf.take n) (setFile st h.path (.fifo { ch with buf := ch.buf.drop n }))

/-- POSIX semantics of `write(fd, bytes)` on this model. On a FIFO: with no
reader attached the write fails with `EPIPE`; if the bytes fit in the pipe
buffer they are appended; otherwise `EAGAIN` under `O_NONBLOCK`, blocking
otherwise. A handle without write access fails with `EBADF`. -/
def osWrite (h : Handle) (bs : List Nat) (st : FsState) : WriteOutcome :=
  if !h.canWrite then .err (IoError.osError EBADF) st
  else
    match lookupFile st h.path with
    | none => .err (IoError.osError EBADF) st
    | some (.regular content) =>
      .ok bs.length (setFile st h.path (.regular (content ++ bs)))
    | some (.fifo ch) =>
      if ch.readers = 0 then .err (IoError.osError EPIPE) st
      else if ch.buf.length + bs.length ≤ pipeCapacity then
        .ok bs.length (setFile st h.path (.fifo { ch with buf := ch.buf ++ bs }))
      else if h.nonblock then .err (IoError.osError EAGAIN) st
      else .blocked

/-- `std::fs::File`'s `Write::flush` is a no-op that returns `Ok(())`. -/
def flush (_ : Handle) (st : FsState) : Except IoError FsState :=
  .ok st

/-- The `UnexpectedEof` error `read_exact` produces when the source ends
before the buffer is filled. -/
def unexpectedEofError : IoError :=
  IoError.new .unexpectedEof "failed to fill whole buffer"

/-- Loop body of `Read::read_exact`, with explicit fuel (each successful
iteration obtains at least one byte, so fuel `n` suffices to read `n` bytes;
the model's `read` never returns `Interrupted`, so that retry arm of the
standard library loop is unreachable and not modelled). -/
def readExactGo (h : Handle) : Nat → Nat → FsState → ReadOutcome
  | _, 0, st => .ok [] st
  | 0, _ + 1, st => .err unexpectedEofError st
  | fuel + 1, n + 1, st =>
    match osRead h (n + 1) st with
    | .ok [] st₁ => .err unexpectedEofError st₁
    | .ok bs st₁ =>
      match readExactGo h fuel (n + 1 - bs.length) st₁ with
      | .ok rest st₂ => .ok (bs ++ rest) st₂
      | r => r
    | .err e st₁ => .err e st₁
    | .blocked => .blocked

/-- `Read::read_exact(buf)` for a buffer of `n` bytes: repeatedly `read`
until the buffer is full, failing with `UnexpectedEof` when the source ends
first. -/
def read_exact (h : Handle) (n : Nat) (st : FsState) : ReadOutcome :=
  readExactGo h n n st

/-- The sequence of the `open_pipe_read` test (src/lib.rs lines 180-211) and
of the spec's round-trip property: open the FIFO for reading, then for
writing, write the four bytes `[0xca, 0xfe, 0xba, 0xbe]` through the write
handle, flush it, and `read_exact` four bytes from the read handle; `some`
of the bytes read when every step succeeds, `none` as soon as one fails. -/
def openPipeReadSequence (p : String) (st : FsState) : Option (List Nat) :=
  match open_read p st with
  | .ok hr st₁ =>
    match open_write p st₁ with
    | .ok hw st₂ =>
      match osWrite hw [0xca, 0xfe, 0xba, 0xbe] st₂ with
      | .ok _ st₃ =>
        match flush hw st₃ with
        | .ok st₄ =>
          match read_exact hr 4 st₄ with
          | .ok bs _ => some bs
          | _ => none
        | .error _ => none
      | _ => none
    | _ => none
  | _ => none

/-! ## Model of `FileFIFOExt::is_fifo` (src/ext.rs lines 30-33) -/

/-- The file-type tag recorded in a file's metadata
(`std::fs::FileType`, via `std::os::unix::fs::FileTypeExt`). -/
inductive FileTypeTag where
  | fifo
  | regular
  | directory
  | symlink
  | blockDevice
  | charDevice
  | socket
deriving DecidableEq

/-- `FileType::is_fifo()`. -/
def FileTypeTag.is_fifo : FileTypeTag → Bool
  | .fifo => true
  | _ => false

instance (α β : Type) [DecidableEq α] [DecidableEq β] : DecidableEq (Except α β) := fun a b =>
  match a, b with
  | .error x, .error y =>
    if h : x = y then isTrue (by rw [h]) else isFalse (by intro hc; injection hc; exact h ‹_›)
  | .ok x, .ok y =>
    if h : x = y then isTrue (by rw [h]) else isFalse (by intro hc; injection hc; exact h ‹_›)
  | .error _, .ok _ => isFalse (by intro hc; exact Except.noConfusion hc)
  | .ok _, .error _ => isFalse (by intro hc; exact Except.noConfusion hc)

/-- An open `std::fs::File` handle as `is_fifo` observes it: the outcome of
the `fstat` behind `File::metadata()` — the file-type tag on success, the
failing errno otherwise. POSIX lists `fstat` failures as `EBADF`, `EIO`,
`ENOMEM` and `EOVERFLOW` (see `fstatErrnos`). -/
structure ModelFile where
  meta : Except Nat FileTypeTag
deriving DecidableEq

/-- The errno values `fstat` can produce (POSIX / Linux man page). -/
def fstatErrnos : List Nat := [ EBADF, EIO, ENOMEM, EOVERFLOW]

/-- `File::metadata()`: the `fstat` outcome, a failing errno wrapped into the
OS-variant `io::Error`. -/
def ModelFile.metadata (f : ModelFile) : Except IoError FileTypeTag :=
  match f.meta with
  | .error code => .error (IoError.osError code)
  | .ok t => .ok t

/-- Embedding of `FileFIFOExt::is_fifo` (src/ext.rs lines 30-33):

    let metadata = self.metadata()?;
    Ok(metadata.file_type().is_fifo())

The `?` operator propagates the metadata error unchanged. -/
def ModelFile.is_fifo (f : ModelFile) : Except IoError Bool :=
  match f.metadata with
  | .error e => .error e
  | .ok md => .ok md.is_fifo

/-! ## Helper lemmas on the filesystem association list -/

theorem lookupFile_setFile_self (fs : FsState) (p : String) (n : FsNode) :
    lookupFile (setFile fs p n) p = some n := by
  induction fs with
  | nil => simp [setFile, lookupFile]
  | cons hd tl ih =>
    obtain ⟨q, m⟩ := hd
    by_cases hq : q = p
    · simp [setFile, lookupFile, hq]
    · simp [setFile, lookupFile, hq, ih]

/-- Characterization of `open_read`: with the crate's options (`read(true)`,
`custom_flags(O_NONBLOCK)`), the open is `O_RDONLY | O_NONBLOCK`, so a missing
path is `ENOENT`, a regular file opens, and a FIFO opens at once attaching a
reader. -/
theorem open_read_eq (p : String) (st : FsState) :
    open_read p st =
      match lookupFile st p with
      | none => .err (IoError.osError ENOENT) st
      | some (.regular _) =>
        .ok { path := p, canRead := true, canWrite := false, appendF := false, nonblock := true } st
      | some (.fifo ch) =>
        .ok { path := p, canRead := true, canWrite := false, appendF := false, nonblock := true }
          (setFile st p (.fifo { ch with readers := ch.readers + 1 })) := by
  unfold open_read OpenOptions.openAt osOpen
  cases lookupFile st p with
  | none => rfl
  | some node => cases node with
    | regular c => rfl
    | fifo ch => rfl

/-- Characterization of `open_write`: with the crate's options (`write(true)`,
`append(true)`, `custom_flags(O_NONBLOCK)`), the open is
`O_WRONLY | O_APPEND | O_NONBLOCK`, so a missing path is `ENOENT`, a regular
file opens, and on a FIFO the open attaches a writer when a reader is present
and fails immediately with `ENXIO` otherwise. -/
theorem open_write_eq (p : String) (st : FsState) :
    open_write p st =
      match lookupFile st p with
      | none => .err (IoError.osError ENOENT) st
      | some (.regular _) =>
        .ok { path := p, canRead := false, canWrite := true, appendF := true, nonblock := true } st
      | some (.fifo ch) =>
        if 0 < ch.readers then
          .ok { path := p, canRead := false, canWrite := true, appendF := true, nonblock := true }
            (setFile st p (.fifo { ch with writers := ch.writers + 1 }))
        else .err (IoError.osError ENXIO) st := by
  unfold open_write OpenOptions.openAt osOpen
  cases lookupFile st p with
  | none => rfl
  | some node => cases node with
    | regular c => rfl
    | fifo ch =>
      show (if 0 < ch.readers then
          OpenOutcome.ok
            { path := p, canRead := false, canWrite := true, appendF := true, nonblock := true }
            (setFile st p (.fifo { ch with writers := ch.writers + 1 }))
        else if (true : Bool) then OpenOutcome.err (IoError.osError ENXIO) st
        else OpenOutcome.blocked) = _
      by_cases hr : 0 < ch.readers
      · simp only [if_pos hr]
      · simp only [if_neg hr, if_true]

/-! ## Claims about `create` -/

/-- Claim C6: for every path, `create(path, None)` behaves identically to
`create(path, Some(0o644))`: when the optional mode argument is absent, the
FIFO is created with the fixed default mode 0644 octal (the same `mkfifo`
call is issued and the same result returned). -/
theorem create_default_mode_0644 (p : PathRepr) (os : MkfifoOracle) :
    create p none os = create p (some 0o644) os := by
  cases p <;> rfl

/-- Claim C1, counterexample: `create` on the UTF-8 path "a\x00b" (interior
NUL byte) fails, and the error returned is of kind `InvalidInput` — produced
by the `CString::new(..)?` conversion — which is none of the four kinds
`PermissionDenied`, `AlreadyExists`, `NotFound`, `Other`. -/
theorem create_nul_path_outside_taxonomy :
    (create (PathRepr.utf8 "a\x00b") none (fun _ _ => none)).outcome =
      CreateOutcome.err cstringNulError ∧
    cstringNulError.kind ≠ IoErrorKind.permissionDenied ∧
    cstringNulError.kind ≠ IoErrorKind.alreadyExists ∧
    cstringNulError.kind ≠ IoErrorKind.notFound ∧
    cstringNulError.kind ≠ IoErrorKind.other := by
  decide

/-- Claim C1 (amended): for every invocation of `create` that reaches the
`mkfifo` syscall (i.e., whose path conversions succeed) and fails, the error
returned is exactly one of the four kinds `PermissionDenied`,
`AlreadyExists`, `NotFound`, `Other`; the pre-syscall C-string conversion on
a NUL-containing path is the sole failure outside this taxonomy. -/
theorem create_syscall_failure_four_kinds (p : PathRepr) (mode : Option Nat)
    (os : MkfifoOracle) (call : MkfifoCall) (e : IoError)
    (hs : (create p mode os).syscall = some call)
    (he : (create p mode os).outcome = CreateOutcome.err e) :
    e.kind = IoErrorKind.permissionDenied ∨ e.kind = IoErrorKind.alreadyExists ∨
      e.kind = IoErrorKind.notFound ∨ e.kind = IoErrorKind.other := by
  cases p with
  | nonUtf8 bs => simp [create, PathRepr.toStr] at hs
  | utf8 s =>
    by_cases hn : containsNul s
    · simp [create, PathRepr.toStr, hn] at hs
    · cases hos : os s (mode.getD 0o644) with
      | none => simp [create, PathRepr.toStr, hn, hos] at he
      | some code =>
        simp [create, PathRepr.toStr, hn, hos] at he
        subst he
        by_cases h1 : code = EACCES
        · simp [h1, IoError.new, EACCES, EEXIST, ENOENT]
        · by_cases h2 : code = EEXIST
          · simp [h1, h2, IoError.new, EACCES, EEXIST, ENOENT]
          · by_cases h3 : code = ENOENT
            · simp [h1, h2, h3, IoError.new, EACCES, EEXIST, ENOENT]
            · simp [h1, h2, h3, IoError.new]

/-- Claim C1, witness: the amended theorem applied to a concrete failing
invocation (mkfifo failing with `EACCES` on "/tmp/fifo"). -/
theorem create_syscall_failure_four_kinds_witness :
    (IoError.new .permissionDenied "could not open \"/tmp/fifo\": Permission denied").kind
        = IoErrorKind.permissionDenied ∨
    (IoError.new .permissionDenied "could not open \"/tmp/fifo\": Permission denied").kind
        = IoErrorKind.alreadyExists ∨
    (IoError.new .permissionDenied "could not open \"/tmp/fifo\": Permission denied").kind
        = IoErrorKind.notFound ∨
    (IoError.new .permissionDenied "could not open \"/tmp/fifo\": Permission denied").kind
        = IoErrorKind.other :=
  create_syscall_failure_four_kinds (PathRepr.utf8 "/tmp/fifo") none (fun _ _ => some 13)
    { path := "/tmp/fifo", mode := 0o644 }
    (IoError.new .permissionDenied "could not open \"/tmp/fifo\": Permission denied")
    (by decide) (by decide)

/-- Claim C4, counterexample: when `mkfifo` fails with errno 5 (`EIO`), which
is none of the mapped codes, the `Other` error returned by `create` does not
carry the raw OS error code — the error is built with `io::Error::new`, whose
`raw_os_error()` is `None`, and the numeric code appears nowhere in the
message either. -/
theorem create_other_error_lacks_raw_code :
    (create (PathRepr.utf8 "/tmp/fifo") none (fun _ _ => some 5)).outcome =
      CreateOutcome.err
        (IoError.new .other "could not open \"/tmp/fifo\": Input/output error") ∧
    (IoError.new .other "could not open \"/tmp/fifo\": Input/output error").rawOs = none := by
  decide

/-- Claim C4 (amended): for every invocation of `create` that fails with an
OS error code other than `EACCES`, `EEXIST` and `ENOENT`, the returned error
has kind `Other` and a human-readable message including the (Debug-quoted)
path and the underlying error text; the raw OS error code is not attached to
the error (`raw_os_error()` is `None`). -/
theorem create_other_error_shape (s : String) (mode : Option Nat)
    (os : MkfifoOracle) (code : Nat)
    (hn : containsNul s = false)
    (hos : os s (mode.getD 0o644) = some code)
    (h1 : code ≠ EACCES) (h2 : code ≠ EEXIST) (h3 : code ≠ ENOENT) :
    (create (PathRepr.utf8 s) mode os).outcome =
      CreateOutcome.err
        (IoError.new .other ("could not open " ++ cstringDebug s ++ ": " ++ strerrorText code)) ∧
    (IoError.new .other ("could not open " ++ cstringDebug s ++ ": " ++ strerrorText code)).rawOs
      = none := by
  refine ⟨?_, rfl⟩
  simp [create, PathRepr.toStr, hn, hos, h1, h2, h3, IoError.new]

/-- Claim C4, witness: the amended theorem applied to the path "/tmp/fifo"
and the unmapped errno 5 (`EIO`). -/
theorem create_other_error_shape_witness :
    (create (PathRepr.utf8 "/tmp/fifo") none (fun _ _ => some 5)).outcome =
      CreateOutcome.err
        (IoError.new .other
          ("could not open " ++ cstringDebug "/tmp/fifo" ++ ": " ++ strerrorText 5)) ∧
    (IoError.new .other
      ("could not open " ++ cstringDebug "/tmp/fifo" ++ ": " ++ strerrorText 5)).rawOs = none :=
  create_other_error_shape "/tmp/fifo" none (fun _ _ => some 5) 5
    (by decide) rfl (by decide) (by decide) (by decide)

/-- Claim C10: `create` does not always return an `ErrorOutcome`: on a
non-UTF-8 path it panics (the `to_str().unwrap()` before the syscall), and on
a UTF-8 path containing a NUL byte it returns the `CString::new` conversion
error — of kind `InvalidInput`, produced before any `mkfifo` call (no syscall
is recorded) and outside the errno-to-kind mapping table. -/
theorem create_path_conversion_failures :
    (∀ bytes mode os, create (PathRepr.nonUtf8 bytes) mode os =
        { syscall := none, outcome := CreateOutcome.panicked }) ∧
    (∀ s mode os, containsNul s = true →
        create (PathRepr.utf8 s) mode os =
          { syscall := none, outcome := CreateOutcome.err cstringNulError } ∧
        cstringNulError.kind = IoErrorKind.invalidInput) := by
  constructor
  · intro bytes mode os
    rfl
  · intro s mode os h
    exact ⟨by simp [create, PathRepr.toStr, h], rfl⟩

/-- Claim C10, witness: the theorem applied to the concrete non-UTF-8 byte
path `[0xff]` and to the NUL-containing UTF-8 path "a\x00b". -/
theorem create_path_conversion_failures_witness :
    create (PathRepr.nonUtf8 [0xff]) none (fun _ _ => none) =
      { syscall := none, outcome := CreateOutcome.panicked } ∧
    create (PathRepr.utf8 "a\x00b") none (fun _ _ => none) =
      { syscall := none, outcome := CreateOutcome.err cstringNulError } :=
  ⟨create_path_conversion_failures.1 [0xff] none (fun _ _ => none),
   (create_path_conversion_failures.2 "a\x00b" none (fun _ _ => none) (by decide)).1⟩

/-! ## Claims about `open_read` and `open_write` -/

/-- Claim C7: `open_read` on a path at which no file exists fails with an
error of kind `NotFound`; the error is the one propagated from the underlying
`open` primitive (it is the OS-variant error, carrying `raw_os_error() =
Some(ENOENT)`), not the product of a separate mapping step (which, as in
`create`, would carry no raw code). -/
theorem open_read_nonexistent_notfound (p : String) (st : FsState)
    (h : lookupFile st p = none) :
    open_read p st = OpenOutcome.err (IoError.osError ENOENT) st ∧
    (IoError.osError ENOENT).kind = IoErrorKind.notFound ∧
    (IoError.osError ENOENT).rawOs = some ENOENT := by
  refine ⟨?_, by decide, rfl⟩
  rw [open_read_eq, h]

/-- Claim C7, witness: the theorem applied to the empty filesystem and the
path "/tmp/missing". -/
theorem open_read_nonexistent_notfound_witness :
    open_read "/tmp/missing" [] = OpenOutcome.err (IoError.osError ENOENT) [] ∧
    (IoError.osError ENOENT).kind = IoErrorKind.notFound ∧
    (IoError.osError ENOENT).rawOs = some ENOENT :=
  open_read_nonexistent_notfound "/tmp/missing" [] rfl

/-- Claim C2: for every FIFO path with zero attached readers, `open_write`
(non-blocking, by its `O_NONBLOCK` custom flag) fails at the open call itself
with the `ENXIO` ("device not configured" style) OS error — it neither
succeeds nor blocks the calling thread. -/
theorem open_write_no_readers_fails (p : String) (st : FsState) (ch : FifoChannel)
    (hp : lookupFile st p = some (FsNode.fifo ch)) (h0 : ch.readers = 0) :
    open_write p st = OpenOutcome.err (IoError.osError ENXIO) st ∧
    open_write p st ≠ OpenOutcome.blocked := by
  have heq : open_write p st = OpenOutcome.err (IoError.osError ENXIO) st := by
    rw [open_write_eq, hp]
    simp [h0]
  exact ⟨heq, by rw [heq]; intro hc; exact OpenOutcome.noConfusion hc⟩

/-- Claim C2, witness: the theorem applied to a filesystem holding a fresh
FIFO at "/tmp/pipe" with no attached reader. -/
theorem open_write_no_readers_fails_witness :
    open_write "/tmp/pipe" [("/tmp/pipe", FsNode.fifo { readers := 0, writers := 0, buf := [] })] =
      OpenOutcome.err (IoError.osError ENXIO)
        [("/tmp/pipe", FsNode.fifo { readers := 0, writers := 0, buf := [] })] ∧
    open_write "/tmp/pipe" [("/tmp/pipe", FsNode.fifo { readers := 0, writers := 0, buf := [] })] ≠
      OpenOutcome.blocked :=
  open_write_no_readers_fails "/tmp/pipe"
    [("/tmp/pipe", FsNode.fifo { readers := 0, writers := 0, buf := [] })]
    { readers := 0, writers := 0, buf := [] } (by decide) rfl

/-- Claim C8: every successful `open_read` yields a handle opened for reading
only and every successful `open_write` one opened for writing with the append
flag; both carry `O_NONBLOCK` set at open time, the open calls themselves
never block, and no read or write through a non-blocking handle ever blocks
the calling thread. -/
theorem open_flags_nonblocking :
    (∀ p st h st₂, open_read p st = OpenOutcome.ok h st₂ →
        h.canRead = true ∧ h.canWrite = false ∧ h.nonblock = true) ∧
    (∀ p st h st₂, open_write p st = OpenOutcome.ok h st₂ →
        h.canWrite = true ∧ h.appendF = true ∧ h.nonblock = true) ∧
    (∀ p st, open_read p st ≠ OpenOutcome.blocked ∧ open_write p st ≠ OpenOutcome.blocked) ∧
    (∀ h n st, h.nonblock = true → osRead h n st ≠ ReadOutcome.blocked) ∧
    (∀ h bs st, h.nonblock = true → osWrite h bs st ≠ WriteOutcome.blocked) := by
  refine ⟨?_, ?_, ?_, ?_, ?_⟩
  · intro p st h st₂ hok
    rw [open_read_eq] at hok
    cases hl : lookupFile st p with
    | none => rw [hl] at hok; simp at hok
    | some node =>
      rw [hl] at hok
      cases node with
      | regular c =>
        simp only [OpenOutcome.ok.injEq] at hok
        obtain ⟨hh, -⟩ := hok
        subst hh
        exact ⟨rfl, rfl, rfl⟩
      | fifo ch =>
        simp only [OpenOutcome.ok.injEq] at hok
        obtain ⟨hh, -⟩ := hok
        subst hh
        exact ⟨rfl, rfl, rfl⟩
  · intro p st h st₂ hok
    rw [open_write_eq] at hok
    cases hl : lookupFile st p with
    | none => rw [hl] at hok; simp at hok
    | some node =>
      rw [hl] at hok
      cases node with
      | regular c =>
        simp only [OpenOutcome.ok.injEq] at hok
        obtain ⟨hh, -⟩ := hok
        subst hh
        exact ⟨rfl, rfl, rfl⟩
      | fifo ch =>
        by_cases hr : 0 < ch.readers
        · simp only [if_pos hr, OpenOutcome.ok.injEq] at hok
          obtain ⟨hh, -⟩ := hok
          subst hh
          exact ⟨rfl, rfl, rfl⟩
        · simp [if_neg hr] at hok
  · intro p st
    constructor
    · rw [open_read_eq]
      cases hl : lookupFile st p with
      | none => simp
      | some node => cases node with
        | regular c => simp
        | fifo ch => simp
    · rw [open_write_eq]
      cases hl : lookupFile st p with
      | none => simp
      | some node => cases node with
        | regular c => simp
        | fifo ch =>
          by_cases hr : 0 < ch.readers
          · simp [hr]
          · simp [hr]
  · intro h n st hnb
    unfold osRead
    cases hcr : h.canRead with
    | false => simp
    | true =>
      simp only [Bool.not_true, Bool.false_eq_true, if_false]
      cases hl : lookupFile st h.path with
      | none => simp
      | some node => cases node with
        | regular c => simp
        | fifo ch =>
          by_cases hb : ch.buf.isEmpty
          · by_cases hw : ch.writers = 0
            · simp [hb, hw]
            · simp [hb, hw, hnb]
          · simp [hb]
  · intro h bs st hnb
    unfold osWrite
    cases hcw : h.canWrite with
    | false => simp
    | true =>
      simp only [Bool.not_true, Bool.false_eq_true, if_false]
      cases hl : lookupFile st h.path with
      | none => simp
      | some node => cases node with
        | regular c => simp
        | fifo ch =>
          by_cases h0 : ch.readers = 0
          · simp [h0]
          · by_cases hcap : ch.buf.length + bs.length ≤ pipeCapacity
            · simp [h0, hcap]
            · simp [h0, hcap, hnb]

/-- Claim C8, witness: the flag facts applied to concrete opens (a FIFO at
"/p", reader side on the fresh FIFO, writer side once a reader is attached)
and the non-blocking facts applied to concrete read/write calls. -/
theorem open_flags_nonblocking_witness :
    ((Handle.mk "/p" true false false true).canRead = true ∧
      (Handle.mk "/p" true false false true).canWrite = false ∧
      (Handle.mk "/p" true false false true).nonblock = true) ∧
    ((Handle.mk "/p" false true true true).canWrite = true ∧
      (Handle.mk "/p" false true true true).appendF = true ∧
      (Handle.mk "/p" false true true true).nonblock = true) ∧
    (open_read "/p" [] ≠ OpenOutcome.blocked ∧ open_write "/p" [] ≠ OpenOutcome.blocked) ∧
    osRead (Handle.mk "/p" true false false true) 1 [] ≠ ReadOutcome.blocked ∧
    osWrite (Handle.mk "/p" false true true true) [0] [] ≠ WriteOutcome.blocked := by
  obtain ⟨h1, h2, h3, h4, h5⟩ := open_flags_nonblocking
  exact ⟨h1 "/p" [("/p", FsNode.fifo { readers := 0, writers := 0, buf := [] })]
          (Handle.mk "/p" true false false true)
          [("/p", FsNode.fifo { readers := 1, writers := 0, buf := [] })] (by decide),
        h2 "/p" [("/p", FsNode.fifo { readers := 1, writers := 0, buf := [] })]
          (Handle.mk "/p" false true true true)
          [("/p", FsNode.fifo { readers := 1, writers := 1, buf := [] })] (by decide),
        h3 "/p" [],
        h4 (Handle.mk "/p" true false false true) 1 [] rfl,
        h5 (Handle.mk "/p" false true true true) [0] [] rfl⟩

/-! ## The round-trip claim -/

theorem setFile_setFile (fs : FsState) (p : String) (a b : FsNode) :
    setFile (setFile fs p a) p b = setFile fs p b := by
  induction fs with
  | nil => simp [setFile]
  | cons hd tl ih =>
    obtain ⟨q, m⟩ := hd
    by_cases hq : q = p
    · simp [setFile, hq]
    · simp [setFile, hq, ih]

/-- Helper: `read_exact` completes in one iteration when a single `read`
already returns the full requested count. -/
theorem readExactGo_full (h : Handle) (fuel n : Nat) (st st' : FsState) (bs : List Nat)
    (hr : osRead h (n + 1) st = ReadOutcome.ok bs st') (hlen : bs.length = n + 1) :
    readExactGo h (fuel + 1) (n + 1) st = ReadOutcome.ok bs st' := by
  cases bs with
  | nil => simp at hlen
  | cons b bt =>
    have hbt : bt.length = n := by simpa using hlen
    simp only [readExactGo]
    rw [hr]
    simp [hbt, Nat.sub_self, readExactGo]

/-- Claim C3: for a fresh FIFO at path `p`, the sequence `open_read`, then
`open_write`, then writing the bytes `[0xca, 0xfe, 0xba, 0xbe]` through the
write handle and flushing, then reading 4 bytes from the read handle, yields
exactly `[0xca, 0xfe, 0xba, 0xbe]` — round-trip byte fidelity through the
pipe, with every step succeeding. -/
theorem open_pipe_read_roundtrip (p : String) (st : FsState)
    (hp : lookupFile st p = some (FsNode.fifo { readers := 0, writers := 0, buf := [] })) :
    openPipeReadSequence p st = some [0xca, 0xfe, 0xba, 0xbe] := by
  have h1 : open_read p st =
      OpenOutcome.ok { path := p, canRead := true, canWrite := false, appendF := false, nonblock := true }
        (setFile st p (FsNode.fifo { readers := 1, writers := 0, buf := [] })) := by
    rw [open_read_eq, hp]
  have h2 : open_write p (setFile st p (FsNode.fifo { readers := 1, writers := 0, buf := [] })) =
      OpenOutcome.ok { path := p, canRead := false, canWrite := true, appendF := true, nonblock := true }
        (setFile st p (FsNode.fifo { readers := 1, writers := 1, buf := [] })) := by
    rw [open_write_eq, lookupFile_setFile_self]
    simp [setFile_setFile]
  have h3 : osWrite { path := p, canRead := false, canWrite := true, appendF := true, nonblock := true }
      [0xca, 0xfe, 0xba, 0xbe]
      (setFile st p (FsNode.fifo { readers := 1, writers := 1, buf := [] })) =
      WriteOutcome.ok 4
        (setFile st p (FsNode.fifo { readers := 1, writers := 1, buf := [0xca, 0xfe, 0xba, 0xbe] })) := by
    unfold osWrite
    dsimp only
    rw [lookupFile_setFile_self]
    simp [pipeCapacity, setFile_setFile]
  have h4 : osRead { path := p, canRead := true, canWrite := false, appendF := false, nonblock := true }
      4 (setFile st p (FsNode.fifo { readers := 1, writers := 1, buf := [0xca, 0xfe, 0xba, 0xbe] })) =
      ReadOutcome.ok [0xca, 0xfe, 0xba, 0xbe]
        (setFile st p (FsNode.fifo { readers := 1, writers := 1, buf := [] })) := by
    unfold osRead
    dsimp only
    rw [lookupFile_setFile_self]
    simp [setFile_setFile]
  have h5 : read_exact { path := p, canRead := true, canWrite := false, appendF := false, nonblock := true }
      4 (setFile st p (FsNode.fifo { readers := 1, writers := 1, buf := [0xca, 0xfe, 0xba, 0xbe] })) =
      ReadOutcome.ok [0xca, 0xfe, 0xba, 0xbe]
        (setFile st p (FsNode.fifo { readers := 1, writers := 1, buf := [] })) :=
    readExactGo_full _ 3 3 _ _ _ h4 rfl
  simp only [openPipeReadSequence, h1, h2, h3, flush, h5]

/-- Claim C3, witness: the round-trip theorem applied to the concrete
filesystem holding a fresh FIFO at "/tmp/test.pipe". -/
theorem open_pipe_read_roundtrip_witness :
    openPipeReadSequence "/tmp/test.pipe"
        [("/tmp/test.pipe", FsNode.fifo { readers := 0, writers := 0, buf := [] })] =
      some [0xca, 0xfe, 0xba, 0xbe] :=
  open_pipe_read_roundtrip "/tmp/test.pipe"
    [("/tmp/test.pipe", FsNode.fifo { readers := 0, writers := 0, buf := [] })] (by decide)

/-! ## Claims about `is_fifo` -/

/-- Claim C5: `is_fifo` fails only when the underlying metadata query fails;
the failure is the metadata error itself, and for every errno `fstat` can
actually produce (`EBADF`, `EIO`, `ENOMEM`, `EOVERFLOW`) the resulting error
has kind `Other` and carries the raw underlying code. -/
theorem is_fifo_error_propagation (f : ModelFile) (e : IoError)
    (h : f.is_fifo = Except.error e) :
    ∃ code, f.meta = Except.error code ∧ e = IoError.osError code ∧
      (code ∈ fstatErrnos → e.kind = IoErrorKind.other ∧ e.rawOs = some code) := by
  cases hm : f.meta with
  | ok t =>
    exfalso
    unfold ModelFile.is_fifo ModelFile.metadata at h
    rw [hm] at h
    simp at h
  | error code =>
    unfold ModelFile.is_fifo ModelFile.metadata at h
    rw [hm] at h
    simp only [Except.error.injEq] at h
    subst h
    refine ⟨code, rfl, rfl, ?_⟩
    intro hmem
    simp only [fstatErrnos, EBADF, EIO, ENOMEM, EOVERFLOW, List.mem_cons,
      List.mem_singleton] at hmem
    rcases hmem with rfl | rfl | rfl | hmem
    · exact ⟨by decide, rfl⟩
    · exact ⟨by decide, rfl⟩
    · exact ⟨by decide, rfl⟩
    · rcases hmem with rfl | hfalse
      · exact ⟨by decide, rfl⟩
      · simp at hfalse

/-- Claim C5, witness: the theorem applied to a handle whose metadata query
fails with `EBADF` (errno 9). -/
theorem is_fifo_error_propagation_witness :
    ModelFile.is_fifo ⟨Except.error 9⟩ = Except.error (IoError.osError 9) ∧
    (IoError.osError 9).kind = IoErrorKind.other ∧
    (IoError.osError 9).rawOs = some 9 := by
  obtain ⟨code, hc, he, himp⟩ :=
    is_fifo_error_propagation ⟨Except.error 9⟩ (IoError.osError 9) (by decide)
  have hc9 : (9 : Nat) = code := by injection hc
  subst hc9
  exact ⟨by decide, himp (by decide)⟩

/-- Claim C9: for every handle whose metadata query succeeds, `is_fifo`
returns exactly the file-type tag's FIFO classification — `Ok(true)` when the
underlying file is a FIFO, `Ok(false)` (never an error) when it is a regular
file. -/
theorem is_fifo_classification (f : ModelFile) (t : FileTypeTag)
    (h : f.meta = Except.ok t) :
    f.is_fifo = Except.ok t.is_fifo ∧
    (t = FileTypeTag.fifo → f.is_fifo = Except.ok true) ∧
    (t = FileTypeTag.regular → f.is_fifo = Except.ok false) := by
  have hmain : f.is_fifo = Except.ok t.is_fifo := by
    unfold ModelFile.is_fifo ModelFile.metadata
    rw [h]
  exact ⟨hmain, fun ht => by rw [hmain, ht]; rfl, fun ht => by rw [hmain, ht]; rfl⟩

/-- Claim C9, witness: the theorem applied to a readable regular file. -/
theorem is_fifo_classification_witness :
    ModelFile.is_fifo ⟨Except.ok FileTypeTag.regular⟩ = Except.ok false :=
  (is_fifo_classification ⟨Except.ok FileTypeTag.regular⟩ FileTypeTag.regular rfl).2.2 rfl

end UnixNamedPipe
